import Mathlib

/-!
Shallow embedding of src/main.py from jmkd3v/rbx-assetdump.

The program is a batch asset downloader.  Network I/O is modelled by
oracle functions passed as parameters: one oracle for the develop
metadata endpoint (one call per id chunk) and one for the assetdelivery
content endpoint (one call per asset).  An oracle returning
Except.error models a request whose raise_for_status raised, or a
transport failure.  File-system effects are modelled as an explicit
event trace: the functions return the list of observable events they
perform, in program order, together with their Python return value or
raised exception (Except).
-/

/-- Exceptions the embedded code can raise: an HTTP / transport error
surfaced by raise_for_status, or a dict KeyError carrying the missing key
(line 82 of main.py, asset_infos[asset_id]). -/
inductive PyError where
  | httpStatus : PyError
  | keyError : Nat → PyError
deriving DecidableEq, Repr

/-- One element of the develop API response data array: the fields of
asset_data that main.py reads (lines 36-37 key the merge by asset_data
id; lines 82-91 read name and typeId). -/
structure AssetData where
  id : Nat
  name : String
  typeId : Nat
deriving DecidableEq, Repr

/-- Oracle for session.get against develop.roblox.com/v1/assets
(lines 29-36): given the assetIds query parameter (one id chunk), either
the parsed data array of the JSON body, or the error raised by
raise_for_status. -/
abbrev DevelopGet := List Nat → Except PyError (List AssetData)

/-- Oracle for session.get against assetdelivery.roblox.com/v1/asset
(lines 43-52): given the id query parameter, either the raw content
bytes read from the response, or the error raised by raise_for_status. -/
abbrev AssetDeliveryGet := Nat → Except PyError (List Nat)

/-- Python dict assignment results[k] = v (line 37): replaces the value
in place if the key is present, otherwise appends the new pair. -/
def dictInsert {α : Type} (k : Nat) (v : α) : List (Nat × α) → List (Nat × α)
  | [] => [(k, v)]
  | (k2, v2) :: rest => if k2 = k then (k, v) :: rest else (k2, v2) :: dictInsert k v rest

/-- Python dict lookup with a default, d.get(k, fallback) (line 83). -/
def dictGet {α : Type} (d : List (Nat × α)) (k : Nat) (fallback : α) : α :=
  (d.lookup k).getD fallback

/-- The asset_type_to_extension dict literal (lines 13-20). -/
def asset_type_to_extension : List (Nat × String) :=
  [(1, "png"), (3, "mp3"), (5, "lua"), (7, "txt"), (9, "rbxl"), (10, "rbxm")]

/-- Line 25: the list comprehension
asset_ids[i : i + chunk_size] for i in range(0, len(asset_ids), chunk_size).
range(0, L, s) for s > 0 has (L + s - 1) / s elements, the j-th being
j * s, and the slice l[i : i + s] is (l.drop i).take s. -/
def id_chunks (chunk_size : Nat) (asset_ids : List Nat) : List (List Nat) :=
  (List.range ((asset_ids.length + chunk_size - 1) / chunk_size)).map
    (fun j => (asset_ids.drop (j * chunk_size)).take chunk_size)

/-- Lines 28-37: the sequential for-loop over id chunks.  Each chunk is
one query to the develop oracle; raise_for_status (line 35) aborts the
whole function on a failed response; a successful response data array
is merged into the results dict keyed by each asset_data id. -/
def mergeChunks (develop_get : DevelopGet) :
    List (List Nat) → List (Nat × AssetData) → Except PyError (List (Nat × AssetData))
  | [], results => Except.ok results
  | id_chunk :: rest, results =>
    match develop_get id_chunk with
    | Except.error e => Except.error e
    | Except.ok data =>
      mergeChunks develop_get rest
        (data.foldl (fun r asset_data => dictInsert asset_data.id asset_data r) results)

/-- get_asset_information (lines 23-39): chunk the ids with
chunk_size = 50 and fold the chunk responses into one dict. -/
def get_asset_information (develop_get : DevelopGet) (asset_ids : List Nat) :
    Except PyError (List (Nat × AssetData)) :=
  mergeChunks develop_get (id_chunks 50 asset_ids) []

/-- get_asset_contents (lines 42-52): one request to the assetdelivery
oracle; raise_for_status then the content bytes. -/
def get_asset_contents (assetdelivery_get : AssetDeliveryGet) (asset_id : Nat) :
    Except PyError (List Nat) :=
  assetdelivery_get asset_id

/-- One entry of result_metadata (lines 86-91): a dict with keys name,
id, filename, type_id, to which line 119 later adds the key success.
The success field is none while the key is absent. -/
structure ResultMeta where
  name : String
  id : Nat
  filename : String
  type_id : Nat
  success : Option Bool
deriving DecidableEq, Repr

/-- Observable effects of one run: a content fetch attempt for an asset
id, a write leaving the named file with the given bytes, and the
manifest write of assets.json with the given records. -/
inductive Ev where
  | fetch : Nat → Ev
  | fileWrite : String → List Nat → Ev
  | manifestWrite : String → List ResultMeta → Ev
deriving DecidableEq, Repr

/-- download_asset_to_path (lines 55-59).  If the content fetch raises,
the exception propagates before any file is opened.  On a successful
fetch, line 58 opens asset_path in mode wb, which creates the file and
truncates it to empty; line 59 calls file.write(content) WITHOUT await,
so with aiofiles this only builds a coroutine object that is never run:
no bytes are written, and the async-with block closes the handle leaving
the file empty.  The fileWrite event therefore carries the empty byte
list, the content of the file when the coroutine resolves. -/
def download_asset_to_path (assetdelivery_get : AssetDeliveryGet) (asset_id : Nat)
    (asset_path : String) : List Ev × Except PyError Unit :=
  match get_asset_contents assetdelivery_get asset_id with
  | Except.error e => ([Ev.fetch asset_id], Except.error e)
  | Except.ok _content => ([Ev.fetch asset_id, Ev.fileWrite asset_path []], Except.ok ())

/-- Lines 80-97 of main: the loop that, for each requested id in order,
dereferences asset_infos[asset_id] (KeyError when absent), derives the
extension with asset_type_to_extension.get(typeId, bin) and the filename
id.extension, appends the pre-download record (success key absent), and
creates the download coroutine object for that asset.  Creating a
coroutine performs no I/O, so this phase emits no events; the pairs
returned in the second component are the not-yet-run coroutine bodies. -/
def prepare_assets (assetdelivery_get : AssetDeliveryGet)
    (asset_infos : List (Nat × AssetData)) (path : String) :
    List Nat → Except PyError (List ResultMeta × List (List Ev × Except PyError Unit))
  | [] => Except.ok ([], [])
  | asset_id :: rest =>
    match asset_infos.lookup asset_id with
    | none => Except.error (PyError.keyError asset_id)
    | some asset_info =>
      let asset_extension := dictGet asset_type_to_extension asset_info.typeId "bin"
      let asset_filename := toString asset_id ++ "." ++ asset_extension
      let asset_path := path ++ "/" ++ asset_filename
      match prepare_assets assetdelivery_get asset_infos path rest with
      | Except.error e => Except.error e
      | Except.ok (result_metadata, coroutines) =>
        Except.ok
          ({ name := asset_info.name, id := asset_info.id, filename := asset_filename,
             type_id := asset_info.typeId, success := none } :: result_metadata,
           download_asset_to_path assetdelivery_get asset_id asset_path :: coroutines)

/-- The try/except of lines 106-109 reduced to the only part the program
keeps, result[0]: true when the awaited coroutine returned, false when
it raised. -/
def exceptToBool {ε α : Type} : Except ε α → Bool
  | Except.ok _ => true
  | Except.error _ => false

/-- main (lines 62-126).  Fetch metadata (line 77, abort on error);
build records and coroutines (lines 80-97, abort on KeyError); the
await loop of lines 105-109 then runs each bare coroutine to completion
in submission order, so the event trace of the run is the concatenation of
the per-coroutine traces in list order; lines 111-119 count successes
and failures and set the success key of each record once; lines 123-126
write the manifest assets.json last.  The result triple is
(result_metadata after line 119, success_count, fail_count).  The
source names this coroutine main; Lean reserves that name for program
entry points, hence main_run. -/
def main_run (develop_get : DevelopGet) (assetdelivery_get : AssetDeliveryGet)
    (path : String) (asset_ids : List Nat) :
    List Ev × Except PyError (List ResultMeta × Nat × Nat) :=
  match get_asset_information develop_get asset_ids with
  | Except.error e => ([], Except.error e)
  | Except.ok asset_infos =>
    match prepare_assets assetdelivery_get asset_infos path asset_ids with
    | Except.error e => ([], Except.error e)
    | Except.ok (result_metadata, coroutines) =>
      let results : List Bool := coroutines.map (fun c => exceptToBool c.snd)
      let success_count := results.count true
      let fail_count := results.count false
      let final_metadata :=
        List.zipWith (fun m r => { m with success := some r }) result_metadata results
      (coroutines.flatMap Prod.fst ++
         [Ev.manifestWrite (path ++ "/assets.json") final_metadata],
       Except.ok (final_metadata, success_count, fail_count))

/-- Start or finish of one download task, for the scheduling model. -/
inductive Step where
  | start : Nat → Step
  | finish : Nat → Step
deriving DecidableEq, Repr

/-- Scheduling model of lines 93-97 and 105-109.  The download
coroutines are bare coroutine objects: they are never wrapped in tasks
(no create_task, no gather), so none of them runs before it is awaited,
and each await in the for-loop of lines 105-109 runs one coroutine from
its first instruction to completion before the loop moves on.  The
start/finish order of the downloads is therefore strictly sequential in
input order. -/
def downloadSchedule (asset_ids : List Nat) : List Step :=
  asset_ids.flatMap (fun asset_id => [Step.start asset_id, Step.finish asset_id])

/-- The ids whose download has started but not finished after the given
step sequence has been executed. -/
def inFlightAfter (steps : List Step) : List Nat :=
  steps.foldl
    (fun acc s =>
      match s with
      | Step.start asset_id => asset_id :: acc
      | Step.finish asset_id => acc.erase asset_id)
    []

/-- Derived form of the record built at lines 83-91 for one id, used to
state what prepare_assets returns when every id is present in
asset_infos; the none branch is junk that is never reached under that
hypothesis. -/
def mkRecord (asset_infos : List (Nat × AssetData)) (asset_id : Nat) : ResultMeta :=
  match asset_infos.lookup asset_id with
  | some asset_info =>
    { name := asset_info.name, id := asset_info.id,
      filename := toString asset_id ++ "." ++
        dictGet asset_type_to_extension asset_info.typeId "bin",
      type_id := asset_info.typeId, success := none }
  | none => { name := "", id := asset_id, filename := "", type_id := 0, success := none }

/-- Derived form of the coroutine built at lines 93-97 for one id. -/
def mkDownload (assetdelivery_get : AssetDeliveryGet) (asset_infos : List (Nat × AssetData))
    (path : String) (asset_id : Nat) : List Ev × Except PyError Unit :=
  download_asset_to_path assetdelivery_get asset_id
    (path ++ "/" ++ (mkRecord asset_infos asset_id).filename)

/-- Whether the download coroutine for an id resolves without raising:
exactly when the content fetch succeeds (the unawaited write never
raises). -/
def successOf (assetdelivery_get : AssetDeliveryGet) (asset_id : Nat) : Bool :=
  exceptToBool (assetdelivery_get asset_id)

/-- The manifest record for one id after line 119 set its success key. -/
def finalRecord (assetdelivery_get : AssetDeliveryGet) (asset_infos : List (Nat × AssetData))
    (asset_id : Nat) : ResultMeta :=
  { mkRecord asset_infos asset_id with success := some (successOf assetdelivery_get asset_id) }

/-- The merge dict d built at line 37 keys every asset_data by its own id
field, so every stored pair satisfies p.2.id = p.1. -/
def KeyedById (d : List (Nat × AssetData)) : Prop :=
  ∀ p ∈ d, (p.2).id = p.1

/-- Concrete develop oracle used in closed evaluation theorems: every
chunk query returns metadata for asset 1 (an image, typeId 1) and for
asset 2 (an audio file, typeId 3). -/
def demoDG : DevelopGet := fun _ => Except.ok [⟨1, "a", 1⟩, ⟨2, "b", 3⟩]

/-- Concrete delivery oracle used in closed evaluation theorems: the
content fetch succeeds for asset 1 and fails for every other id. -/
def demoAG : AssetDeliveryGet := fun asset_id =>
  if asset_id = 1 then Except.ok [9] else Except.error PyError.httpStatus


theorem lookup_mem {α : Type} {k : Nat} {v : α} :
    ∀ {l : List (Nat × α)}, l.lookup k = some v → (k, v) ∈ l := by
  intro l
  induction l with
  | nil => simp [List.lookup]
  | cons p rest ih =>
    obtain ⟨k2, v2⟩ := p
    simp only [List.lookup]
    by_cases hk : k = k2
    · subst hk
      simp
      intro h
      exact Or.inl h.symm
    · simp [beq_false_of_ne hk] at *
      intro h
      exact Or.inr (ih h)

theorem dictInsert_lookup_self {α : Type} (k : Nat) (v : α) :
    ∀ (d : List (Nat × α)), (dictInsert k v d).lookup k = some v := by
  intro d
  induction d with
  | nil => simp [dictInsert, List.lookup]
  | cons p rest ih =>
    obtain ⟨k2, v2⟩ := p
    by_cases hk : k2 = k
    · subst hk
      simp [dictInsert, List.lookup]
    · simp [dictInsert, hk, List.lookup, beq_false_of_ne (Ne.symm hk)]
      exact ih

theorem dictInsert_map_fst {α : Type} (k : Nat) (v : α) :
    ∀ (d : List (Nat × α)), (dictInsert k v d).map Prod.fst =
      if k ∈ d.map Prod.fst then d.map Prod.fst else d.map Prod.fst ++ [k] := by
  intro d
  induction d with
  | nil => simp [dictInsert]
  | cons p rest ih =>
    obtain ⟨k2, v2⟩ := p
    by_cases hk : k2 = k
    · subst hk
      simp [dictInsert]
    · simp only [dictInsert, if_neg hk, List.map_cons, ih]
      have hne : ¬ (k = k2) := fun h => hk h.symm
      by_cases hmem : k ∈ rest.map Prod.fst
      · simp [hmem, hne]
      · simp [hmem, hne]

theorem dictInsert_keys_nodup {α : Type} (k : Nat) (v : α) (d : List (Nat × α))
    (hnd : (d.map Prod.fst).Nodup) : ((dictInsert k v d).map Prod.fst).Nodup := by
  rw [dictInsert_map_fst]
  by_cases hmem : k ∈ d.map Prod.fst
  · simpa [hmem]
  · simp only [if_neg hmem]
    refine List.Nodup.append hnd (List.nodup_singleton k) ?_
    intro a ha hb
    simp at hb
    subst hb
    exact hmem ha

theorem dictInsert_keyedById {d : List (Nat × AssetData)} (a : AssetData)
    (hd : KeyedById d) : KeyedById (dictInsert a.id a d) := by
  induction d with
  | nil =>
    intro p hp
    simp [dictInsert] at hp
    subst hp
    rfl
  | cons q rest ih =>
    obtain ⟨k2, v2⟩ := q
    have hrest : KeyedById rest := fun p hp => hd p (List.mem_cons_of_mem _ hp)
    by_cases hk : k2 = a.id
    · subst hk
      intro p hp
      simp [dictInsert] at hp
      rcases hp with hp | hp
      · subst hp; rfl
      · exact hd p (List.mem_cons_of_mem _ hp)
    · intro p hp
      simp only [dictInsert, if_neg hk, List.mem_cons] at hp
      rcases hp with hp | hp
      · subst hp
        exact hd (k2, v2) (List.mem_cons_self _ _)
      · exact ih hrest p hp

theorem foldl_dictInsert_keyedById (data : List AssetData) :
    ∀ (d : List (Nat × AssetData)), KeyedById d →
      KeyedById (data.foldl (fun r asset_data => dictInsert asset_data.id asset_data r) d) := by
  induction data with
  | nil => intro d hd; exact hd
  | cons a rest ih =>
    intro d hd
    exact ih _ (dictInsert_keyedById a hd)

theorem foldl_dictInsert_keys_nodup (data : List AssetData) :
    ∀ (d : List (Nat × AssetData)), (d.map Prod.fst).Nodup →
      ((data.foldl (fun r asset_data => dictInsert asset_data.id asset_data r) d).map
        Prod.fst).Nodup := by
  induction data with
  | nil => intro d hd; exact hd
  | cons a rest ih =>
    intro d hd
    exact ih _ (dictInsert_keys_nodup a.id a d hd)

theorem mergeChunks_keyedById (develop_get : DevelopGet) :
    ∀ (chunks : List (List Nat)) (d m : List (Nat × AssetData)), KeyedById d →
      mergeChunks develop_get chunks d = Except.ok m → KeyedById m := by
  intro chunks
  induction chunks with
  | nil =>
    intro d m hd h
    simp [mergeChunks] at h
    subst h
    exact hd
  | cons c rest ih =>
    intro d m hd h
    simp only [mergeChunks] at h
    cases hdg : develop_get c with
    | error e => rw [hdg] at h; exact absurd h (by simp)
    | ok data =>
      rw [hdg] at h
      exact ih _ m (foldl_dictInsert_keyedById data d hd) h

theorem mergeChunks_keys_nodup (develop_get : DevelopGet) :
    ∀ (chunks : List (List Nat)) (d m : List (Nat × AssetData)),
      (d.map Prod.fst).Nodup →
      mergeChunks develop_get chunks d = Except.ok m → (m.map Prod.fst).Nodup := by
  intro chunks
  induction chunks with
  | nil =>
    intro d m hd h
    simp [mergeChunks] at h
    subst h
    exact hd
  | cons c rest ih =>
    intro d m hd h
    simp only [mergeChunks] at h
    cases hdg : develop_get c with
    | error e => rw [hdg] at h; exact absurd h (by simp)
    | ok data =>
      rw [hdg] at h
      exact ih _ m (foldl_dictInsert_keys_nodup data d hd) h

theorem mergeChunks_error_of_mem (develop_get : DevelopGet) :
    ∀ (chunks : List (List Nat)) (d : List (Nat × AssetData)),
      (∃ c ∈ chunks, ∃ e, develop_get c = Except.error e) →
      ∃ e2, mergeChunks develop_get chunks d = Except.error e2 := by
  intro chunks
  induction chunks with
  | nil => intro d h; simp at h
  | cons c rest ih =>
    intro d h
    simp only [mergeChunks]
    cases hdg : develop_get c with
    | error e => exact ⟨e, rfl⟩
    | ok data =>
      apply ih
      rcases h with ⟨c2, hc2, e, he⟩
      rcases List.mem_cons.mp hc2 with rfl | hc2
      · rw [hdg] at he; exact absurd he (by simp)
      · exact ⟨c2, hc2, e, he⟩

theorem get_asset_information_keyedById {develop_get : DevelopGet} {asset_ids : List Nat}
    {m : List (Nat × AssetData)} (h : get_asset_information develop_get asset_ids = Except.ok m) :
    KeyedById m :=
  mergeChunks_keyedById develop_get _ [] m (by intro p hp; simp at hp) h

theorem get_asset_information_keys_nodup {develop_get : DevelopGet} {asset_ids : List Nat}
    {m : List (Nat × AssetData)} (h : get_asset_information develop_get asset_ids = Except.ok m) :
    (m.map Prod.fst).Nodup :=
  mergeChunks_keys_nodup develop_get _ [] m (by simp) h

theorem lookup_id_of_keyedById {m : List (Nat × AssetData)} (hm : KeyedById m)
    {k : Nat} {v : AssetData} (h : m.lookup k = some v) : v.id = k :=
  hm (k, v) (lookup_mem h)

theorem id_chunks_nil (chunk_size : Nat) : id_chunks chunk_size [] = [] := by
  rcases chunk_size with _ | n
  · simp [id_chunks]
  · simp [id_chunks, Nat.div_eq_of_lt (show n < n + 1 by omega)]

theorem id_chunks50_cons (l : List Nat) (hl : l ≠ []) :
    id_chunks 50 l = l.take 50 :: id_chunks 50 (l.drop 50) := by
  have hL : 1 ≤ l.length := List.length_pos.mpr hl
  have hcount : (l.length + 50 - 1) / 50 = ((l.drop 50).length + 50 - 1) / 50 + 1 := by
    rw [List.length_drop]
    omega
  unfold id_chunks
  rw [hcount, List.range_succ_eq_map]
  simp only [List.map_cons, Nat.zero_mul, List.drop_zero, List.map_map]
  congr 1
  apply List.map_congr_left
  intro j hj
  simp only [Function.comp_apply, List.drop_drop]
  congr 2
  · omega

theorem id_chunks50_join_aux (k : Nat) :
    ∀ (l : List Nat), l.length ≤ k → (id_chunks 50 l).flatten = l := by
  induction k with
  | zero =>
    intro l hl
    have : l = [] := List.eq_nil_of_length_eq_zero (Nat.le_zero.mp hl)
    subst this
    simp [id_chunks_nil]
  | succ n ih =>
    intro l hl
    by_cases hnil : l = []
    · subst hnil
      simp [id_chunks_nil]
    · rw [id_chunks50_cons l hnil]
      simp only [List.flatten_cons]
      rw [ih (l.drop 50) (by rw [List.length_drop]; have := List.length_pos.mpr hnil; omega)]
      exact List.take_append_drop 50 l

theorem id_chunks50_join (l : List Nat) : (id_chunks 50 l).flatten = l :=
  id_chunks50_join_aux l.length l (le_refl _)

theorem id_chunks_length_le (chunk_size : Nat) (l : List Nat) :
    ∀ c ∈ id_chunks chunk_size l, c.length ≤ chunk_size := by
  intro c hc
  simp only [id_chunks, List.mem_map] at hc
  obtain ⟨j, _, rfl⟩ := hc
  simp [List.length_take]

theorem prepare_assets_error_of_missing (assetdelivery_get : AssetDeliveryGet)
    (asset_infos : List (Nat × AssetData)) (path : String) :
    ∀ (asset_ids : List Nat),
      (∃ asset_id ∈ asset_ids, asset_infos.lookup asset_id = none) →
      ∃ bad ∈ asset_ids, asset_infos.lookup bad = none ∧
        prepare_assets assetdelivery_get asset_infos path asset_ids =
          Except.error (PyError.keyError bad) := by
  intro asset_ids
  induction asset_ids with
  | nil => intro h; simp at h
  | cons asset_id rest ih =>
    intro h
    cases hlk : asset_infos.lookup asset_id with
    | none =>
      refine ⟨asset_id, List.mem_cons_self _ _, hlk, ?_⟩
      simp [prepare_assets, hlk]
    | some asset_info =>
      have hrest : ∃ asset_id2 ∈ rest, asset_infos.lookup asset_id2 = none := by
        rcases h with ⟨bad, hbad, hnone⟩
        rcases List.mem_cons.mp hbad with rfl | hbad
        · rw [hlk] at hnone; exact absurd hnone (by simp)
        · exact ⟨bad, hbad, hnone⟩
      obtain ⟨bad, hbadmem, hnone, heq⟩ := ih hrest
      refine ⟨bad, List.mem_cons_of_mem _ hbadmem, hnone, ?_⟩
      simp [prepare_assets, hlk, heq]

theorem prepare_assets_eq_of_all_present (assetdelivery_get : AssetDeliveryGet)
    (asset_infos : List (Nat × AssetData)) (path : String) :
    ∀ (asset_ids : List Nat),
      (∀ asset_id ∈ asset_ids, (asset_infos.lookup asset_id).isSome) →
      prepare_assets assetdelivery_get asset_infos path asset_ids =
        Except.ok (asset_ids.map (mkRecord asset_infos),
          asset_ids.map (mkDownload assetdelivery_get asset_infos path)) := by
  intro asset_ids
  induction asset_ids with
  | nil => intro _; simp [prepare_assets]
  | cons asset_id rest ih =>
    intro hall
    cases hlk : asset_infos.lookup asset_id with
    | none =>
      have := hall asset_id (List.mem_cons_self _ _)
      rw [hlk] at this
      simp at this
    | some asset_info =>
      have hrest := ih (fun a ha => hall a (List.mem_cons_of_mem _ ha))
      simp only [prepare_assets, hlk, hrest, List.map_cons]
      congr 2
      · simp [mkRecord, hlk]
      · simp [mkDownload, mkRecord, hlk]

theorem prepare_assets_ok_all_present (assetdelivery_get : AssetDeliveryGet)
    (asset_infos : List (Nat × AssetData)) (path : String) :
    ∀ (asset_ids : List Nat) (pr : List ResultMeta × List (List Ev × Except PyError Unit)),
      prepare_assets assetdelivery_get asset_infos path asset_ids = Except.ok pr →
      ∀ asset_id ∈ asset_ids, (asset_infos.lookup asset_id).isSome := by
  intro asset_ids
  induction asset_ids with
  | nil => intro pr h a ha; simp at ha
  | cons asset_id rest ih =>
    intro pr h a ha
    cases hlk : asset_infos.lookup asset_id with
    | none => simp [prepare_assets, hlk] at h
    | some asset_info =>
      rcases List.mem_cons.mp ha with rfl | ha
      · simp [hlk]
      · simp only [prepare_assets, hlk] at h
        cases hrest : prepare_assets assetdelivery_get asset_infos path rest with
        | error e => rw [hrest] at h; simp at h
        | ok pr2 =>
          exact ih pr2 hrest a ha

theorem zipWith_map_same {α β γ δ : Type} (f : α → β) (g : α → γ) (h : β → γ → δ) :
    ∀ (l : List α), List.zipWith h (l.map f) (l.map g) = l.map (fun x => h (f x) (g x)) := by
  intro l
  induction l with
  | nil => simp
  | cons x rest ih => simp [ih]

theorem flatMap_map_comp {α β γ : Type} (g : α → β) (f : β → List γ) :
    ∀ (l : List α), (l.map g).flatMap f = l.flatMap (fun x => f (g x)) := by
  intro l
  induction l with
  | nil => simp
  | cons x rest ih => simp [ih]

theorem mkDownload_snd_eq (assetdelivery_get : AssetDeliveryGet)
    (asset_infos : List (Nat × AssetData)) (path : String) (asset_id : Nat) :
    exceptToBool (mkDownload assetdelivery_get asset_infos path asset_id).snd =
      successOf assetdelivery_get asset_id := by
  unfold mkDownload download_asset_to_path get_asset_contents successOf
  cases assetdelivery_get asset_id <;> simp [exceptToBool]

theorem main_run_eq_of_ok (develop_get : DevelopGet) (assetdelivery_get : AssetDeliveryGet)
    (path : String) (asset_ids : List Nat) (m : List (Nat × AssetData))
    (hm : get_asset_information develop_get asset_ids = Except.ok m)
    (hall : ∀ asset_id ∈ asset_ids, (m.lookup asset_id).isSome) :
    main_run develop_get assetdelivery_get path asset_ids =
      (asset_ids.flatMap (fun asset_id =>
          (mkDownload assetdelivery_get m path asset_id).fst) ++
        [Ev.manifestWrite (path ++ "/assets.json")
          (asset_ids.map (finalRecord assetdelivery_get m))],
       Except.ok (asset_ids.map (finalRecord assetdelivery_get m),
         (asset_ids.map (successOf assetdelivery_get)).count true,
         (asset_ids.map (successOf assetdelivery_get)).count false)) := by
  unfold main_run
  rw [hm]
  dsimp only
  rw [prepare_assets_eq_of_all_present assetdelivery_get m path asset_ids hall]
  dsimp only
  simp only [List.map_map]
  have hres : (fun c => exceptToBool (Prod.snd c)) ∘ mkDownload assetdelivery_get m path =
      successOf assetdelivery_get := by
    funext asset_id
    exact mkDownload_snd_eq assetdelivery_get m path asset_id
  rw [hres]
  rw [flatMap_map_comp]
  have hz := zipWith_map_same (mkRecord m) (successOf assetdelivery_get)
    (fun (mr : ResultMeta) (r : Bool) =>
      ({ name := mr.name, id := mr.id, filename := mr.filename, type_id := mr.type_id,
         success := some r } : ResultMeta)) asset_ids
  rw [hz]
  rfl

theorem downloadSchedule_cons (asset_id : Nat) (rest : List Nat) :
    downloadSchedule (asset_id :: rest) =
      Step.start asset_id :: Step.finish asset_id :: downloadSchedule rest := by
  simp [downloadSchedule]

theorem downloadSchedule_length (asset_ids : List Nat) :
    (downloadSchedule asset_ids).length = 2 * asset_ids.length := by
  induction asset_ids with
  | nil => simp [downloadSchedule]
  | cons a rest ih => rw [downloadSchedule_cons]; simp [ih]; omega

theorem inFlightAfter_start_finish (asset_id : Nat) (t : List Step) :
    inFlightAfter (Step.start asset_id :: Step.finish asset_id :: t) = inFlightAfter t := by
  simp [inFlightAfter, List.foldl_cons, List.erase_cons_head]

theorem inFlightAfter_le_one (asset_ids : List Nat) :
    ∀ (k : Nat), (inFlightAfter ((downloadSchedule asset_ids).take k)).length ≤ 1 := by
  induction asset_ids with
  | nil =>
    intro k
    simp [downloadSchedule, inFlightAfter]
  | cons a rest ih =>
    intro k
    rw [downloadSchedule_cons]
    match k with
    | 0 => simp [inFlightAfter]
    | 1 => simp [inFlightAfter]
    | n + 2 =>
      simp only [List.take_succ_cons]
      rw [inFlightAfter_start_finish]
      exact ih n

theorem mkRecord_of_lookup {m : List (Nat × AssetData)} {asset_id : Nat} {info : AssetData}
    (h : m.lookup asset_id = some info) :
    mkRecord m asset_id =
      { name := info.name, id := info.id,
        filename := toString asset_id ++ "." ++
          dictGet asset_type_to_extension info.typeId "bin",
        type_id := info.typeId, success := none } := by
  simp [mkRecord, h]

theorem mkRecord_success_none (m : List (Nat × AssetData)) (asset_id : Nat) :
    (mkRecord m asset_id).success = none := by
  unfold mkRecord
  cases m.lookup asset_id <;> rfl

theorem main_run_ok_manifest (develop_get : DevelopGet) (assetdelivery_get : AssetDeliveryGet)
    (path : String) (asset_ids : List Nat) (m : List (Nat × AssetData))
    (manifest : List ResultMeta) (success_count fail_count : Nat)
    (hm : get_asset_information develop_get asset_ids = Except.ok m)
    (hmain : (main_run develop_get assetdelivery_get path asset_ids).snd =
      Except.ok (manifest, success_count, fail_count)) :
    (∀ asset_id ∈ asset_ids, (m.lookup asset_id).isSome) ∧
    manifest = asset_ids.map (finalRecord assetdelivery_get m) ∧
    success_count = (asset_ids.map (successOf assetdelivery_get)).count true ∧
    fail_count = (asset_ids.map (successOf assetdelivery_get)).count false := by
  cases hp : prepare_assets assetdelivery_get m path asset_ids with
  | error e =>
    unfold main_run at hmain
    rw [hm] at hmain
    dsimp only at hmain
    rw [hp] at hmain
    simp at hmain
  | ok pr =>
    have hall := prepare_assets_ok_all_present assetdelivery_get m path asset_ids pr hp
    have heq := main_run_eq_of_ok develop_get assetdelivery_get path asset_ids m hm hall
    rw [heq] at hmain
    dsimp only at hmain
    have h1 := (Except.ok.inj hmain)
    refine ⟨hall, ?_, ?_, ?_⟩
    · exact (congrArg Prod.fst h1).symm
    · exact (congrArg (fun p => p.snd.fst) h1).symm
    · exact (congrArg (fun p => p.snd.snd) h1).symm

/-- Claim C1, code evaluation at the failing input: the content fetch for
asset 7 succeeds with bytes [1, 2, 3], yet the download leaves the file
at out/7.png holding the empty byte list, because line 59 never awaits
file.write(content); the claim says the file holds exactly the fetched
bytes, and [] is not [1, 2, 3]. -/
theorem C1_unawaited_write_leaves_file_empty :
    download_asset_to_path (fun _ => Except.ok [1, 2, 3]) 7 "out/7.png" =
      ([Ev.fetch 7, Ev.fileWrite "out/7.png" []], Except.ok ()) ∧
    get_asset_contents (fun _ => Except.ok [1, 2, 3]) 7 = Except.ok [1, 2, 3] ∧
    ([] : List Nat) ≠ [1, 2, 3] :=
  ⟨rfl, rfl, by decide⟩

/-- Claim C2, counterexample: with input ids [1, 2] there is no point of
the run at which both downloads are in flight simultaneously, refuting
the claim that the downloads of all assets are in flight at once. -/
theorem C2_all_in_flight_counterexample :
    ¬ ∃ k, ∀ asset_id ∈ [1, 2],
      asset_id ∈ inFlightAfter ((downloadSchedule [1, 2]).take k) := by
  rintro ⟨k, hk⟩
  have h1 := hk 1 (by simp)
  have h2 := hk 2 (by simp)
  match k with
  | 0 => exact absurd h1 (by decide)
  | 1 => exact absurd h2 (by decide)
  | 2 => exact absurd h1 (by decide)
  | 3 => exact absurd h1 (by decide)
  | n + 4 =>
    rw [List.take_of_length_le (by rw [downloadSchedule_length]; simp)] at h1
    exact absurd h1 (by decide)

/-- Claim C2, amended: one download task is created per asset (the
schedule has exactly one start and one finish per id), but the bare
coroutines are awaited one at a time in input order, so at most one
download is ever in flight; the await loop serializes every download
rather than acting as a single final barrier. -/
theorem C2_sequential_await_schedule (asset_ids : List Nat) :
    (downloadSchedule asset_ids).length = 2 * asset_ids.length ∧
    ∀ k, (inFlightAfter ((downloadSchedule asset_ids).take k)).length ≤ 1 :=
  ⟨downloadSchedule_length asset_ids, inFlightAfter_le_one asset_ids⟩

/-- Claim C5: the metadata fetcher splits the id list into consecutive
chunks of at most 50 ids whose concatenation is the input list, and a
120-id input yields exactly the batch sizes [50, 50, 20]. -/
theorem C5_metadata_chunking (asset_ids : List Nat) :
    (id_chunks 50 asset_ids).flatten = asset_ids ∧
    (∀ c ∈ id_chunks 50 asset_ids, c.length ≤ 50) ∧
    (id_chunks 50 (List.range 120)).map List.length = [50, 50, 20] :=
  ⟨id_chunks50_join asset_ids, id_chunks_length_le 50 asset_ids, by rfl⟩

theorem C5_metadata_chunking_witness :
    (id_chunks 50 [1, 2, 3]).flatten = [1, 2, 3] ∧ ([1, 2, 3] : List Nat).length ≤ 50 :=
  ⟨(C5_metadata_chunking [1, 2, 3]).1,
   (C5_metadata_chunking [1, 2, 3]).2.1 [1, 2, 3] (by decide)⟩

/-- Claim C6: if the metadata query for any chunk fails, the whole run
aborts with the error of that stage: the event trace is empty, so no content
fetch happens, no asset file is opened and no manifest is written. -/
theorem C6_metadata_failure_aborts (develop_get : DevelopGet)
    (assetdelivery_get : AssetDeliveryGet) (path : String) (asset_ids : List Nat)
    (h : ∃ c ∈ id_chunks 50 asset_ids, ∃ e, develop_get c = Except.error e) :
    (main_run develop_get assetdelivery_get path asset_ids).fst = [] ∧
    ∃ e2, (main_run develop_get assetdelivery_get path asset_ids).snd = Except.error e2 := by
  obtain ⟨e2, he2⟩ := mergeChunks_error_of_mem develop_get (id_chunks 50 asset_ids) [] h
  have hg : get_asset_information develop_get asset_ids = Except.error e2 := he2
  unfold main_run
  rw [hg]
  exact ⟨rfl, e2, rfl⟩

theorem C6_metadata_failure_aborts_witness :
    (∃ c ∈ id_chunks 50 [1], ∃ e, (fun _ : List Nat => (Except.error PyError.httpStatus :
        Except PyError (List AssetData))) c = Except.error e) ∧
    (main_run (fun _ => Except.error PyError.httpStatus) demoAG "out" [1]).fst = [] ∧
    ∃ e2, (main_run (fun _ => Except.error PyError.httpStatus) demoAG "out" [1]).snd =
      Except.error e2 := by
  have h : ∃ c ∈ id_chunks 50 [1], ∃ e, (fun _ : List Nat => (Except.error PyError.httpStatus :
      Except PyError (List AssetData))) c = Except.error e :=
    ⟨[1], by decide, PyError.httpStatus, rfl⟩
  exact ⟨h, C6_metadata_failure_aborts _ demoAG "out" [1] h⟩

/-- Claim C8: when the merged metadata lacks a requested id, the run
fails with a KeyError naming a missing id, before any download event
occurs (the trace is empty); absence is never skipped or defaulted. -/
theorem C8_missing_metadata_fatal (develop_get : DevelopGet)
    (assetdelivery_get : AssetDeliveryGet) (path : String) (asset_ids : List Nat)
    (m : List (Nat × AssetData))
    (hm : get_asset_information develop_get asset_ids = Except.ok m)
    (hmiss : ∃ asset_id ∈ asset_ids, m.lookup asset_id = none) :
    (main_run develop_get assetdelivery_get path asset_ids).fst = [] ∧
    ∃ bad ∈ asset_ids, m.lookup bad = none ∧
      (main_run develop_get assetdelivery_get path asset_ids).snd =
        Except.error (PyError.keyError bad) := by
  obtain ⟨bad, hmem, hnone, heq⟩ :=
    prepare_assets_error_of_missing assetdelivery_get m path asset_ids hmiss
  unfold main_run
  rw [hm]
  dsimp only
  rw [heq]
  exact ⟨rfl, bad, hmem, hnone, rfl⟩

theorem C8_missing_metadata_fatal_witness :
    (get_asset_information demoDG [1, 3] = Except.ok [(1, ⟨1, "a", 1⟩), (2, ⟨2, "b", 3⟩)]) ∧
    ((List.lookup 3 [(1, (⟨1, "a", 1⟩ : AssetData)), (2, ⟨2, "b", 3⟩)]) = none) ∧
    (main_run demoDG demoAG "out" [1, 3]).fst = [] ∧
    ∃ bad ∈ [1, 3], (List.lookup bad [(1, (⟨1, "a", 1⟩ : AssetData)), (2, ⟨2, "b", 3⟩)]) = none ∧
      (main_run demoDG demoAG "out" [1, 3]).snd = Except.error (PyError.keyError bad) := by
  refine ⟨rfl, rfl, ?_⟩
  exact C8_missing_metadata_fatal demoDG demoAG "out" [1, 3] _ rfl ⟨3, by decide, rfl⟩

/-- Claim C3: when metadata fetching succeeded and the run completed,
the manifest has exactly one record per requested id, in input order
(the id field of the i-th record equals the i-th requested id), and every
record has its success field set. -/
theorem C3_manifest_length_order_success (develop_get : DevelopGet)
    (assetdelivery_get : AssetDeliveryGet) (path : String) (asset_ids : List Nat)
    (m : List (Nat × AssetData)) (manifest : List ResultMeta)
    (success_count fail_count : Nat)
    (hm : get_asset_information develop_get asset_ids = Except.ok m)
    (hmain : (main_run develop_get assetdelivery_get path asset_ids).snd =
      Except.ok (manifest, success_count, fail_count))
    (hne : asset_ids ≠ []) :
    manifest.length = asset_ids.length ∧
    ∀ i (h : i < asset_ids.length) (h2 : i < manifest.length),
      (manifest.get ⟨i, h2⟩).id = asset_ids.get ⟨i, h⟩ ∧
      ((manifest.get ⟨i, h2⟩).success).isSome = true := by
  obtain ⟨hall, hman, _, _⟩ := main_run_ok_manifest develop_get assetdelivery_get path
    asset_ids m manifest success_count fail_count hm hmain
  subst hman
  refine ⟨by simp, ?_⟩
  intro i h h2
  have hg : (asset_ids.map (finalRecord assetdelivery_get m)).get ⟨i, h2⟩ =
      finalRecord assetdelivery_get m (asset_ids.get ⟨i, h⟩) := by
    simp [List.get_eq_getElem, List.getElem_map]
  rw [hg]
  have hmem : asset_ids.get ⟨i, h⟩ ∈ asset_ids := List.get_mem asset_ids i h
  obtain ⟨info, hinfo⟩ := Option.isSome_iff_exists.mp (hall _ hmem)
  have hinfoid : info.id = asset_ids.get ⟨i, h⟩ :=
    lookup_id_of_keyedById (get_asset_information_keyedById hm) hinfo
  constructor
  · show (mkRecord m (asset_ids.get ⟨i, h⟩)).id = asset_ids.get ⟨i, h⟩
    rw [mkRecord_of_lookup hinfo]
    exact hinfoid
  · rfl

theorem C3_manifest_length_order_success_witness :
    (get_asset_information demoDG [1, 2] =
      Except.ok [(1, (⟨1, "a", 1⟩ : AssetData)), (2, ⟨2, "b", 3⟩)]) ∧
    ((main_run demoDG demoAG "out" [1, 2]).snd = Except.ok
      ([{ name := "a", id := 1, filename := "1.png", type_id := 1, success := some true },
        { name := "b", id := 2, filename := "2.mp3", type_id := 3, success := some false }],
       1, 1)) ∧
    ([1, 2] : List Nat) ≠ [] ∧
    ([{ name := "a", id := 1, filename := "1.png", type_id := 1, success := some true },
      { name := "b", id := 2, filename := "2.mp3", type_id := 3,
        success := some false }] : List ResultMeta).length = ([1, 2] : List Nat).length := by
  refine ⟨rfl, rfl, by decide, ?_⟩
  exact (C3_manifest_length_order_success demoDG demoAG "out" [1, 2] _ _ 1 1 rfl rfl
    (by decide)).1

/-- Claim C4: the filename of each manifest record is the requested id,
rendered in decimal, then a dot, then the extension looked up for the
typeId of the asset in asset_type_to_extension with fallback bin; the fixed
table maps 1, 3, 5, 7, 9, 10 to png, mp3, lua, txt, rbxl, rbxm, and an
unmapped code such as 999 falls back to bin. -/
theorem C4_filename_from_type_table (develop_get : DevelopGet)
    (assetdelivery_get : AssetDeliveryGet) (path : String) (asset_ids : List Nat)
    (m : List (Nat × AssetData)) (manifest : List ResultMeta)
    (success_count fail_count : Nat)
    (hm : get_asset_information develop_get asset_ids = Except.ok m)
    (hmain : (main_run develop_get assetdelivery_get path asset_ids).snd =
      Except.ok (manifest, success_count, fail_count)) :
    (∀ i (h : i < asset_ids.length) (h2 : i < manifest.length), ∃ info,
      m.lookup (asset_ids.get ⟨i, h⟩) = some info ∧
      (manifest.get ⟨i, h2⟩).filename = toString (asset_ids.get ⟨i, h⟩) ++ "." ++
        dictGet asset_type_to_extension info.typeId "bin") ∧
    dictGet asset_type_to_extension 1 "bin" = "png" ∧
    dictGet asset_type_to_extension 3 "bin" = "mp3" ∧
    dictGet asset_type_to_extension 5 "bin" = "lua" ∧
    dictGet asset_type_to_extension 7 "bin" = "txt" ∧
    dictGet asset_type_to_extension 9 "bin" = "rbxl" ∧
    dictGet asset_type_to_extension 10 "bin" = "rbxm" ∧
    dictGet asset_type_to_extension 999 "bin" = "bin" := by
  obtain ⟨hall, hman, _, _⟩ := main_run_ok_manifest develop_get assetdelivery_get path
    asset_ids m manifest success_count fail_count hm hmain
  subst hman
  refine ⟨?_, rfl, rfl, rfl, rfl, rfl, rfl, rfl⟩
  intro i h h2
  have hg : (asset_ids.map (finalRecord assetdelivery_get m)).get ⟨i, h2⟩ =
      finalRecord assetdelivery_get m (asset_ids.get ⟨i, h⟩) := by
    simp [List.get_eq_getElem, List.getElem_map]
  rw [hg]
  have hmem : asset_ids.get ⟨i, h⟩ ∈ asset_ids := List.get_mem asset_ids i h
  obtain ⟨info, hinfo⟩ := Option.isSome_iff_exists.mp (hall _ hmem)
  refine ⟨info, hinfo, ?_⟩
  show (mkRecord m (asset_ids.get ⟨i, h⟩)).filename = _
  rw [mkRecord_of_lookup hinfo]

theorem C4_filename_from_type_table_witness :
    (get_asset_information demoDG [1, 2] =
      Except.ok [(1, (⟨1, "a", 1⟩ : AssetData)), (2, ⟨2, "b", 3⟩)]) ∧
    dictGet asset_type_to_extension 1 "bin" = "png" ∧
    dictGet asset_type_to_extension 999 "bin" = "bin" := by
  refine ⟨rfl, ?_, ?_⟩
  · exact (C4_filename_from_type_table demoDG demoAG "out" [1, 2] _
      [{ name := "a", id := 1, filename := "1.png", type_id := 1, success := some true },
       { name := "b", id := 2, filename := "2.mp3", type_id := 3, success := some false }]
      1 1 rfl rfl).2.1
  · exact (C4_filename_from_type_table demoDG demoAG "out" [1, 2] _
      [{ name := "a", id := 1, filename := "1.png", type_id := 1, success := some true },
       { name := "b", id := 2, filename := "2.mp3", type_id := 3, success := some false }]
      1 1 rfl rfl).2.2.2.2.2.2.2

/-- Claim C9: the records built before the downloads run carry name, id,
filename and type_id with success absent, and the manifest records agree
with them on those four fields, with only success newly set. -/
theorem C9_record_fields_frame (develop_get : DevelopGet)
    (assetdelivery_get : AssetDeliveryGet) (path : String) (asset_ids : List Nat)
    (m : List (Nat × AssetData)) (result_metadata : List ResultMeta)
    (coroutines : List (List Ev × Except PyError Unit)) (manifest : List ResultMeta)
    (success_count fail_count : Nat)
    (hm : get_asset_information develop_get asset_ids = Except.ok m)
    (hprep : prepare_assets assetdelivery_get m path asset_ids =
      Except.ok (result_metadata, coroutines))
    (hmain : (main_run develop_get assetdelivery_get path asset_ids).snd =
      Except.ok (manifest, success_count, fail_count)) :
    (∀ r ∈ result_metadata, r.success = none) ∧
    manifest.length = result_metadata.length ∧
    ∀ i (h1 : i < result_metadata.length) (h2 : i < manifest.length),
      (manifest.get ⟨i, h2⟩).name = (result_metadata.get ⟨i, h1⟩).name ∧
      (manifest.get ⟨i, h2⟩).id = (result_metadata.get ⟨i, h1⟩).id ∧
      (manifest.get ⟨i, h2⟩).filename = (result_metadata.get ⟨i, h1⟩).filename ∧
      (manifest.get ⟨i, h2⟩).type_id = (result_metadata.get ⟨i, h1⟩).type_id ∧
      ((manifest.get ⟨i, h2⟩).success).isSome = true := by
  have hall := prepare_assets_ok_all_present assetdelivery_get m path asset_ids _ hprep
  have heq := prepare_assets_eq_of_all_present assetdelivery_get m path asset_ids hall
  rw [heq] at hprep
  have hpr := Except.ok.inj hprep
  have hmeta : result_metadata = asset_ids.map (mkRecord m) := (congrArg Prod.fst hpr).symm
  obtain ⟨_, hman, _, _⟩ := main_run_ok_manifest develop_get assetdelivery_get path
    asset_ids m manifest success_count fail_count hm hmain
  subst hman
  subst hmeta
  refine ⟨?_, by simp, ?_⟩
  · intro r hr
    obtain ⟨asset_id, _, rfl⟩ := List.mem_map.mp hr
    exact mkRecord_success_none m asset_id
  · intro i h1 h2
    have hglen : i < asset_ids.length := by simpa using h1
    have hgF : (asset_ids.map (finalRecord assetdelivery_get m)).get ⟨i, h2⟩ =
        finalRecord assetdelivery_get m (asset_ids.get ⟨i, hglen⟩) := by
      simp [List.get_eq_getElem, List.getElem_map]
    have hgM : (asset_ids.map (mkRecord m)).get ⟨i, h1⟩ =
        mkRecord m (asset_ids.get ⟨i, hglen⟩) := by
      simp [List.get_eq_getElem, List.getElem_map]
    rw [hgF, hgM]
    exact ⟨rfl, rfl, rfl, rfl, rfl⟩

theorem C9_record_fields_frame_witness :
    (get_asset_information demoDG [1, 2] =
      Except.ok [(1, (⟨1, "a", 1⟩ : AssetData)), (2, ⟨2, "b", 3⟩)]) ∧
    (prepare_assets demoAG [(1, (⟨1, "a", 1⟩ : AssetData)), (2, ⟨2, "b", 3⟩)] "out" [1, 2] =
      Except.ok
        ([{ name := "a", id := 1, filename := "1.png", type_id := 1, success := none },
          { name := "b", id := 2, filename := "2.mp3", type_id := 3, success := none }],
         [([Ev.fetch 1, Ev.fileWrite "out/1.png" []], Except.ok ()),
          ([Ev.fetch 2], Except.error PyError.httpStatus)])) ∧
    ∀ r ∈ ([{ name := "a", id := 1, filename := "1.png", type_id := 1, success := none },
            { name := "b", id := 2, filename := "2.mp3", type_id := 3, success := none }] :
           List ResultMeta), r.success = none := by
  refine ⟨rfl, rfl, ?_⟩
  exact (C9_record_fields_frame demoDG demoAG "out" [1, 2] _ _ _
    [{ name := "a", id := 1, filename := "1.png", type_id := 1, success := some true },
     { name := "b", id := 2, filename := "2.mp3", type_id := 3, success := some false }]
    1 1 rfl rfl rfl).1

/-- Claim C10: the metadata merge keeps a single entry per id (its key
list has no duplicates, and a dict insert overwrites the value stored at
an existing key), while the manifest keeps one record per occurrence of
a requested id, so its length equals the input length even with
duplicates, and records of duplicate occurrences are identical. -/
theorem C10_duplicate_ids (develop_get : DevelopGet)
    (assetdelivery_get : AssetDeliveryGet) (path : String) (asset_ids : List Nat)
    (m : List (Nat × AssetData)) (manifest : List ResultMeta)
    (success_count fail_count : Nat)
    (hm : get_asset_information develop_get asset_ids = Except.ok m)
    (hmain : (main_run develop_get assetdelivery_get path asset_ids).snd =
      Except.ok (manifest, success_count, fail_count)) :
    (m.map Prod.fst).Nodup ∧
    (∀ (k : Nat) (v : AssetData) (d : List (Nat × AssetData)),
      (dictInsert k v d).lookup k = some v) ∧
    manifest.length = asset_ids.length ∧
    ∀ i j (hi : i < asset_ids.length) (hj : j < asset_ids.length)
      (hi2 : i < manifest.length) (hj2 : j < manifest.length),
      asset_ids.get ⟨i, hi⟩ = asset_ids.get ⟨j, hj⟩ →
      manifest.get ⟨i, hi2⟩ = manifest.get ⟨j, hj2⟩ := by
  obtain ⟨hall, hman, _, _⟩ := main_run_ok_manifest develop_get assetdelivery_get path
    asset_ids m manifest success_count fail_count hm hmain
  subst hman
  refine ⟨get_asset_information_keys_nodup hm,
    fun k v d => dictInsert_lookup_self k v d, by simp, ?_⟩
  intro i j hi hj hi2 hj2 hij
  have hgI : (asset_ids.map (finalRecord assetdelivery_get m)).get ⟨i, hi2⟩ =
      finalRecord assetdelivery_get m (asset_ids.get ⟨i, hi⟩) := by
    simp [List.get_eq_getElem, List.getElem_map]
  have hgJ : (asset_ids.map (finalRecord assetdelivery_get m)).get ⟨j, hj2⟩ =
      finalRecord assetdelivery_get m (asset_ids.get ⟨j, hj⟩) := by
    simp [List.get_eq_getElem, List.getElem_map]
  rw [hgI, hgJ, hij]

theorem C10_duplicate_ids_witness :
    (get_asset_information demoDG [1, 1] =
      Except.ok [(1, (⟨1, "a", 1⟩ : AssetData)), (2, ⟨2, "b", 3⟩)]) ∧
    ((main_run demoDG demoAG "out" [1, 1]).snd = Except.ok
      ([{ name := "a", id := 1, filename := "1.png", type_id := 1, success := some true },
        { name := "a", id := 1, filename := "1.png", type_id := 1, success := some true }],
       2, 0)) ∧
    ([{ name := "a", id := 1, filename := "1.png", type_id := 1, success := some true },
      { name := "a", id := 1, filename := "1.png", type_id := 1, success := some true }] :
     List ResultMeta).length = ([1, 1] : List Nat).length := by
  refine ⟨rfl, rfl, ?_⟩
  exact (C10_duplicate_ids demoDG demoAG "out" [1, 1] _ _ 2 0 rfl rfl).2.2.1

/-- Claim C7: with two requested assets where the content fetch for x
fails and the one for y succeeds, the run still completes: the failure of x
is caught per-asset, the download of y still runs (both fetches appear in the
trace), only the file of y is created on disk (the only fileWrite event is at
the path of y, since the fetch of x raises before any file is opened), the manifest is
written with success false for x and true for y, and the counts are one
success and one failure. -/
theorem C7_per_asset_failure_isolated (develop_get : DevelopGet)
    (assetdelivery_get : AssetDeliveryGet) (path : String) (x y : Nat)
    (m : List (Nat × AssetData)) (infoX infoY : AssetData)
    (hm : get_asset_information develop_get [x, y] = Except.ok m)
    (hx : m.lookup x = some infoX) (hy : m.lookup y = some infoY)
    (hfx : successOf assetdelivery_get x = false)
    (hfy : successOf assetdelivery_get y = true) :
    main_run develop_get assetdelivery_get path [x, y] =
      ([Ev.fetch x, Ev.fetch y,
        Ev.fileWrite (path ++ "/" ++ (toString y ++ "." ++
          dictGet asset_type_to_extension infoY.typeId "bin")) [],
        Ev.manifestWrite (path ++ "/assets.json")
          [{ name := infoX.name, id := infoX.id,
             filename := toString x ++ "." ++
               dictGet asset_type_to_extension infoX.typeId "bin",
             type_id := infoX.typeId, success := some false },
           { name := infoY.name, id := infoY.id,
             filename := toString y ++ "." ++
               dictGet asset_type_to_extension infoY.typeId "bin",
             type_id := infoY.typeId, success := some true }]],
       Except.ok
         ([{ name := infoX.name, id := infoX.id,
             filename := toString x ++ "." ++
               dictGet asset_type_to_extension infoX.typeId "bin",
             type_id := infoX.typeId, success := some false },
           { name := infoY.name, id := infoY.id,
             filename := toString y ++ "." ++
               dictGet asset_type_to_extension infoY.typeId "bin",
             type_id := infoY.typeId, success := some true }], 1, 1)) := by
  obtain ⟨e, he⟩ : ∃ e, assetdelivery_get x = Except.error e := by
    cases hag : assetdelivery_get x with
    | ok bs => rw [successOf, hag] at hfx; simp [exceptToBool] at hfx
    | error e => exact ⟨e, rfl⟩
  obtain ⟨bs, hbs⟩ : ∃ bs, assetdelivery_get y = Except.ok bs := by
    cases hag : assetdelivery_get y with
    | ok bs => exact ⟨bs, rfl⟩
    | error e => rw [successOf, hag] at hfy; simp [exceptToBool] at hfy
  have hall : ∀ asset_id ∈ [x, y], (m.lookup asset_id).isSome := by
    intro a ha
    rcases List.mem_cons.mp ha with rfl | ha
    · simp [hx]
    · rcases List.mem_cons.mp ha with rfl | ha
      · simp [hy]
      · simp at ha
  rw [main_run_eq_of_ok develop_get assetdelivery_get path [x, y] m hm hall]
  simp only [List.flatMap_cons, List.flatMap_nil, List.map_cons, List.map_nil,
    List.append_nil, mkDownload, download_asset_to_path, get_asset_contents,
    he, hbs, mkRecord_of_lookup hx, mkRecord_of_lookup hy, finalRecord, hfx, hfy]
  simp [successOf, he, hbs, exceptToBool, List.count_cons]

theorem C7_per_asset_failure_isolated_witness :
    (get_asset_information demoDG [2, 1] =
      Except.ok [(1, (⟨1, "a", 1⟩ : AssetData)), (2, ⟨2, "b", 3⟩)]) ∧
    ((List.lookup 2 [(1, (⟨1, "a", 1⟩ : AssetData)), (2, ⟨2, "b", 3⟩)]) =
      some ⟨2, "b", 3⟩) ∧
    ((List.lookup 1 [(1, (⟨1, "a", 1⟩ : AssetData)), (2, ⟨2, "b", 3⟩)]) =
      some ⟨1, "a", 1⟩) ∧
    (successOf demoAG 2 = false) ∧
    (successOf demoAG 1 = true) ∧
    main_run demoDG demoAG "out" [2, 1] =
      ([Ev.fetch 2, Ev.fetch 1, Ev.fileWrite "out/1.png" [],
        Ev.manifestWrite "out/assets.json"
          [{ name := "b", id := 2, filename := "2.mp3", type_id := 3, success := some false },
           { name := "a", id := 1, filename := "1.png", type_id := 1, success := some true }]],
       Except.ok
         ([{ name := "b", id := 2, filename := "2.mp3", type_id := 3, success := some false },
           { name := "a", id := 1, filename := "1.png", type_id := 1, success := some true }],
          1, 1)) := by
  refine ⟨rfl, rfl, rfl, rfl, rfl, ?_⟩
  exact C7_per_asset_failure_isolated demoDG demoAG "out" 2 1
    [(1, ⟨1, "a", 1⟩), (2, ⟨2, "b", 3⟩)] ⟨2, "b", 3⟩ ⟨1, "a", 1⟩ rfl rfl rfl rfl rfl
